import Mathlib

/-!
Shallow embedding of the PowerSync collaborative-whiteboard server and client
synchronization code:

* `src/back-end/src/index.js` — Socket.IO intent handlers (`shape-create`,
  `shape-update`, `shape-delete`, `board-rename`) and room fan-out;
* `src/back-end/src/routes/boards.js` — REST board CRUD handlers;
* `src/front-end/src/routes/BoardCanvas.tsx` — client-side fact application
  (`onCreated`, `onUpdated`, `onDeleted`) and the debounced autosave effect.

Shapes are plain JS objects; we model them as association lists of
key/value pairs over a small JS value type.  Handlers are modelled as pure
functions from the store, the room membership and the incoming message to
the new store plus the list of (recipient, fact) deliveries; the boolean
`persistOk` models whether the awaited database write succeeds or throws.
-/

namespace PowerSync

/-- JS primitive values carried in shape objects. -/
inductive Val where
  | str (s : String)
  | num (n : Int)
  | bool (b : Bool)
  | null
deriving DecidableEq, Repr

/-- A JS object: an association list of key/value pairs.  Real JS objects
have unique keys; where a proof needs that, it is an explicit hypothesis. -/
abbrev Obj := List (String × Val)

/-- Property read `o[k]` (first matching key). -/
def lookupKey (o : Obj) (k : String) : Option Val :=
  match o with
  | [] => none
  | (k', v) :: rest => if k' = k then some v else lookupKey rest k

/-- Property write `o[k] = v`: replace the first binding of `k` in place,
or append a fresh binding (JS assignment / Mongo `$set` field semantics,
which also preserve key order). -/
def setKey (o : Obj) (k : String) (v : Val) : Obj :=
  match o with
  | [] => [(k, v)]
  | (k', v') :: rest => if k' = k then (k, v) :: rest else (k', v') :: setKey rest k v

/-- `{...s, ...props}` (BoardCanvas.tsx `onUpdated`) and the backend loop
`Object.keys(props).forEach(key => set[`shapes.$[elem].${key}`] = props[key])`
(index.js `shape-update`): every key of `props` overwrites, the rest of `s`
is untouched. -/
def mergeProps (s props : Obj) : Obj :=
  props.foldl (fun acc kv => setKey acc kv.1 kv.2) s

/-- `s.id` — the identity the protocol uses for a shape record. -/
def idOf (s : Obj) : Option Val := lookupKey s "id"

/-- `s.id === sid` for a string `sid` (front-end comparisons and the Mongo
filters `{ 'elem.id': sid }` / `{ id: sid }`). -/
def matchesId (s : Obj) (sid : String) : Bool :=
  idOf s = some (Val.str sid)

/-- BoardCanvas.tsx `onCreated`:
`setShapes(prev => [...prev.filter(s => s.id !== payload.shape.id), payload.shape])`. -/
def applyCreated (l : List Obj) (sh : Obj) : List Obj :=
  l.filter (fun s => !(idOf s = idOf sh : Bool)) ++ [sh]

/-- BoardCanvas.tsx `onUpdated` (`prev.map(s => s.id === shapeId ? {...s, ...props} : s)`)
and the backend `updateOne` with `$set` on `shapes.$[elem].*` filtered by
`{'elem.id': shapeId}`: merge `props` into every shape whose id matches. -/
def applyUpdateToList (l : List Obj) (sid : String) (props : Obj) : List Obj :=
  l.map (fun s => if matchesId s sid then mergeProps s props else s)

/-- BoardCanvas.tsx `onDeleted` (`prev.filter(s => s.id !== shapeId)`) and the
backend `$pull: { shapes: { id: shapeId } }`: drop every shape whose id matches. -/
def applyDelete (l : List Obj) (sid : String) : List Obj :=
  l.filter (fun s => !(matchesId s sid))

/-- Number of shapes in `l` whose id is `v`. -/
def countWithId (l : List Obj) (v : Option Val) : Nat :=
  (l.filter (fun s => (idOf s = v : Bool))).length

/-- JS `String.prototype.trim()`: strip leading and trailing whitespace
(embedded over the string's character list so it evaluates in proofs). -/
def jsTrim (s : String) : String :=
  ⟨((s.data.dropWhile Char.isWhitespace).reverse.dropWhile Char.isWhitespace).reverse⟩

/-- `data.name.trim() || 'Untitled document'` (index.js `board-rename` and
routes/boards.js `PUT /:id`): the trimmed name, or the placeholder when the
trimmed name is the empty string (falsy). -/
def canonName (nm : String) : String :=
  if jsTrim nm = "" then "Untitled document" else jsTrim nm

/-! ## Board store (models/Board.js + MongoDB `boards` collection) -/

/-- A board document (models/Board.js): display name, description, owner
subject id, and the embedded ordered shape list. -/
structure Board where
  name : String
  description : String
  ownerId : String
  shapes : List Obj
deriving DecidableEq, Repr

/-- The `boards` collection, keyed by `_id` (ids unique in MongoDB). -/
abbrev Store := List (String × Board)

/-- `Board.updateOne({_id: bid}, ...)`: rewrite the board with id `bid`
through `f`; matching nothing is a successful no-op. -/
def updateStore (st : Store) (bid : String) (f : Board → Board) : Store :=
  st.map (fun e => if e.1 = bid then (e.1, f e.2) else e)

/-- `Board.findById(bid)` / `findOne({_id: bid})`. -/
def findBoard (st : Store) (bid : String) : Option Board :=
  match st with
  | [] => none
  | (k, b) :: rest => if k = bid then some b else findBoard rest bid

/-! ## Socket.IO intent handlers (index.js) -/

abbrev SessionId := String

/-- The outward facts the engine emits to a room. -/
inductive Fact where
  | shapeCreated (shape : Obj)
  | shapeUpdated (shapeId : String) (props : Obj)
  | shapeDeleted (shapeId : String)
  | boardRenamed (name : String)
deriving DecidableEq, Repr

/-- `io.to(boardId).emit(...)`: delivery to every socket currently in the
room — the emitting socket is NOT excluded (that would be `socket.to`). -/
def emitToRoom (members : List SessionId) (f : Fact) : List (SessionId × Fact) :=
  members.map (fun s => (s, f))

/-- JS truthiness of an optional string field (`!data.boardId`): present and
non-empty. -/
def truthyStr : Option String → Bool
  | some s => !(s = "" : Bool)
  | none => false

/-- `{ boardId, shape }` payload of `shape-create`; a missing field is `none`. -/
structure CreateMsg where
  boardId : Option String
  shape : Option Obj
deriving DecidableEq, Repr

/-- `{ boardId, shapeId, props }` payload of `shape-update`. -/
structure UpdateMsg where
  boardId : Option String
  shapeId : Option String
  props : Option Obj
deriving DecidableEq, Repr

/-- `{ boardId, shapeId }` payload of `shape-delete`. -/
structure DeleteMsg where
  boardId : Option String
  shapeId : Option String
deriving DecidableEq, Repr

/-- `{ boardId, name }` payload of `board-rename`; `name` is valid whenever
it is a string — the empty string included (`typeof data.name !== 'string'`). -/
structure RenameMsg where
  boardId : Option String
  name : Option String
deriving DecidableEq, Repr

/-- `!data || !data.boardId || !data.shape` guard of `shape-create`. -/
def createValid : Option CreateMsg → Bool
  | some m => truthyStr m.boardId && m.shape.isSome
  | none => false

/-- `!data || !data.boardId || !data.shapeId` guard of `shape-update`. -/
def updateValid : Option UpdateMsg → Bool
  | some m => truthyStr m.boardId && truthyStr m.shapeId
  | none => false

/-- `!data || !data.boardId || !data.shapeId` guard of `shape-delete`. -/
def deleteValid : Option DeleteMsg → Bool
  | some m => truthyStr m.boardId && truthyStr m.shapeId
  | none => false

/-- `!data || !data.boardId || typeof data.name !== 'string'` guard of
`board-rename`. -/
def renameValid : Option RenameMsg → Bool
  | some m => truthyStr m.boardId && m.name.isSome
  | none => false

/-- `socket.on('shape-create')` (index.js 93–109).  `sender` is the socket
the intent arrived on; the handler never uses it to exclude anyone from the
fan-out.  `persistOk` models whether the awaited `Board.updateOne` with
`$push: { shapes: data.shape }` succeeds (a throw is caught and logged).
The `io.to(boardId).emit('shape-created', ...)` runs after the try/catch,
unconditionally. -/
def handleShapeCreate (sender : SessionId) (msg : Option CreateMsg) (st : Store)
    (members : List SessionId) (persistOk : Bool) : Store × List (SessionId × Fact) :=
  match msg with
  | none => (st, [])
  | some m =>
    match m.boardId, m.shape with
    | some bid, some sh =>
      if bid = "" then (st, [])
      else
        let st' := if persistOk
          then updateStore st bid (fun b => { b with shapes := b.shapes ++ [sh] })
          else st
        (st', emitToRoom members (Fact.shapeCreated sh))
    | _, _ => (st, [])

/-- `socket.on('shape-update')` (index.js 111–137).  `props := data.props || {}`;
when `props` has no keys no database call is made at all; otherwise one
`updateOne` `$set`s `shapes.$[elem].<key>` for every key, filtered by
`{'elem.id': shapeId}`.  The `shape-updated` emit runs after the try/catch,
unconditionally. -/
def handleShapeUpdate (sender : SessionId) (msg : Option UpdateMsg) (st : Store)
    (members : List SessionId) (persistOk : Bool) : Store × List (SessionId × Fact) :=
  match msg with
  | none => (st, [])
  | some m =>
    match m.boardId, m.shapeId with
    | some bid, some sid =>
      if bid = "" ∨ sid = "" then (st, [])
      else
        let props := m.props.getD []
        let st' := if props.isEmpty then st
          else if persistOk
            then updateStore st bid (fun b => { b with shapes := applyUpdateToList b.shapes sid props })
            else st
        (st', emitToRoom members (Fact.shapeUpdated sid props))
    | _, _ => (st, [])

/-- `socket.on('shape-delete')` (index.js 139–155): one `updateOne` with
`$pull: { shapes: { id: shapeId } }`; the `shape-deleted` emit runs after the
try/catch, unconditionally. -/
def handleShapeDelete (sender : SessionId) (msg : Option DeleteMsg) (st : Store)
    (members : List SessionId) (persistOk : Bool) : Store × List (SessionId × Fact) :=
  match msg with
  | none => (st, [])
  | some m =>
    match m.boardId, m.shapeId with
    | some bid, some sid =>
      if bid = "" ∨ sid = "" then (st, [])
      else
        let st' := if persistOk
          then updateStore st bid (fun b => { b with shapes := applyDelete b.shapes sid })
          else st
        (st', emitToRoom members (Fact.shapeDeleted sid))
    | _, _ => (st, [])

/-- `socket.on('board-rename')` (index.js 157–168).  Unlike the three shape
handlers, the `io.to(boardId).emit('board-renamed', ...)` sits INSIDE the
try block, after the awaited `updateOne`; when the write throws, the catch
logs and no fact is emitted. -/
def handleBoardRename (sender : SessionId) (msg : Option RenameMsg) (st : Store)
    (members : List SessionId) (persistOk : Bool) : Store × List (SessionId × Fact) :=
  match msg with
  | none => (st, [])
  | some m =>
    match m.boardId, m.name with
    | some bid, some nm =>
      if bid = "" then (st, [])
      else if persistOk then
        (updateStore st bid (fun b => { b with name := canonName nm }),
         emitToRoom members (Fact.boardRenamed (canonName nm)))
      else (st, [])
    | _, _ => (st, [])

/-! ## REST board CRUD (routes/boards.js)

These are the handlers the claims cite: they query by `_id` alone.  The
router is mounted behind `verifyFirebase` (index.js 78), so `uid` is the
caller's verified Firebase subject id; none of the cited handlers consult
it. -/

/-- HTTP outcome of a REST handler. -/
inductive RestResult (α : Type) where
  | ok (val : α)
  | notFound
  | badRequest
  | serverError
deriving DecidableEq, Repr

/-- `GET /api/boards` (boards.js 21–28): `Board.find({})` — every board in
the collection, with no owner filter.  (The `createdAt` sort only reorders;
it is not modelled.) -/
def listBoards (st : Store) (uid : String) : List (String × Board) := st

/-- `GET /api/boards/:id` (boards.js 31–39): `Board.findById(id)` — no owner
check; 404 only when the id is absent. -/
def getBoard (st : Store) (uid : String) (bid : String) : RestResult Board :=
  match findBoard st bid with
  | some b => RestResult.ok b
  | none => RestResult.notFound

/-- `PUT /api/boards/:id` (boards.js 42–54): `findByIdAndUpdate` with
`update.name = name.trim() || 'Untitled document'` when `name` is a string
and `update.description = description.trim()` when `description` is a
string — again no owner check. -/
def updateBoardRest (st : Store) (uid : String) (bid : String)
    (nameField descField : Option String) : Store × RestResult Board :=
  let f : Board → Board := fun b =>
    let b := match nameField with
      | some nm => { b with name := canonName nm }
      | none => b
    match descField with
    | some d => { b with description := jsTrim d }
    | none => b
  match findBoard st bid with
  | some b => (updateStore st bid f, RestResult.ok (f b))
  | none => (st, RestResult.notFound)

/-- `PUT /api/boards/:id/shapes` (boards.js 57–77): full overwrite of the
shape list via `$set: { shapes }` when the body carries an array — no owner
check. -/
def overwriteShapesRest (st : Store) (uid : String) (bid : String)
    (shapes : Option (List Obj)) : Store × RestResult Unit :=
  match shapes with
  | none => (st, RestResult.badRequest)
  | some shs =>
    match findBoard st bid with
    | some _ => (updateStore st bid (fun b => { b with shapes := shs }), RestResult.ok ())
    | none => (st, RestResult.notFound)

/-- `DELETE /api/boards/:id` (boards.js 79–97): the handler's first statement
evaluates `mongoose.isValidObjectId(id)` but `mongoose` is never required in
this module, so the call raises a ReferenceError, the catch returns 500, and
no board is ever deleted by this route. -/
def deleteBoardRest (st : Store) (uid : String) (bid : String) : Store × RestResult Unit :=
  (st, RestResult.serverError)

/-! ## Client autosave debounce (BoardCanvas.tsx 221–230)

`useEffect(() => { const t = setTimeout(save, 500); return () => clearTimeout(t) }, [shapes, boardId])`:
every change of the `shapes` state clears the previous pending timer and
arms a fresh 500 ms one; a timer that reaches its deadline before the next
change fires and PUTs the then-current full shape list. -/

/-- A client-visible shape mutation, applied to the local `shapes` state. -/
inductive Mut where
  | create (sh : Obj)
  | update (sid : String) (props : Obj)
  | delete (sid : String)
deriving DecidableEq, Repr

/-- Apply one mutation to the client's shape list (the `onCreated` /
`onUpdated` / `onDeleted` state transitions). -/
def applyMut (l : List Obj) : Mut → List Obj
  | Mut.create sh => applyCreated l sh
  | Mut.update sid props => applyUpdateToList l sid props
  | Mut.delete sid => applyDelete l sid

def applyMuts (l : List Obj) (ms : List Mut) : List Obj := ms.foldl applyMut l

/-- The autosave delay (`setTimeout(..., 500)`). -/
def debounceDelay : Nat := 500

/-- Which timers fire, given the times the `shapes` state changed (strictly
increasing): the timer armed at change `i` fires at `tᵢ + delay` unless the
next change arrives strictly before that deadline and clears it.  Returns
`(fire time, index of the change whose state is captured)`. -/
def debounceFiresAux (delay : Nat) (i : Nat) : List Nat → List (Nat × Nat)
  | [] => []
  | [t] => [(t + delay, i)]
  | t :: t' :: rest =>
    (if t + delay ≤ t' then [(t + delay, i)] else []) ++ debounceFiresAux delay (i + 1) (t' :: rest)

def debounceFires (delay : Nat) (times : List Nat) : List (Nat × Nat) :=
  debounceFiresAux delay 0 times

/-- The autosave PUTs issued for a run of timed mutations: each fired timer
writes the full shape list as it stands at fire time — the fold of all
mutations up to and including the captured index. -/
def autosaveWrites (init : List Obj) (muts : List (Nat × Mut)) : List (Nat × List Obj) :=
  (debounceFires debounceDelay (muts.map Prod.fst)).map
    (fun p => (p.1, applyMuts init ((muts.take (p.2 + 1)).map Prod.snd)))

/-- Immediate per-intent Shape Store writes issued by the socket handlers
(index.js): `shape-create` and `shape-delete` always call `updateOne`;
`shape-update` skips the call when `props` has no keys. -/
def mutWriteCount : Mut → Nat
  | Mut.create _ => 1
  | Mut.update _ props => if props.isEmpty then 0 else 1
  | Mut.delete _ => 1

def socketWriteCount (muts : List (Nat × Mut)) : Nat :=
  (muts.map (fun m => mutWriteCount m.2)).sum

/-- Total writes the Shape Store receives for a board over a run of
mutations: the per-intent socket writes plus the debounced autosave PUTs. -/
def shapeStoreWriteCount (init : List Obj) (muts : List (Nat × Mut)) : Nat :=
  socketWriteCount muts + (autosaveWrites init muts).length

/-! ## Helper lemmas -/

theorem lookupKey_setKey_self (o : Obj) (k : String) (v : Val) :
    lookupKey (setKey o k v) k = some v := by
  induction o with
  | nil => simp [setKey, lookupKey]
  | cons e rest ih =>
    obtain ⟨k', v'⟩ := e
    by_cases h : k' = k
    · simp [setKey, h, lookupKey]
    · simp [setKey, h, lookupKey, ih]

theorem lookupKey_setKey_ne (o : Obj) {k k' : String} (v : Val) (h : k' ≠ k) :
    lookupKey (setKey o k' v) k = lookupKey o k := by
  induction o with
  | nil => simp [setKey, lookupKey, h]
  | cons e rest ih =>
    obtain ⟨k₀, v₀⟩ := e
    by_cases h₀ : k₀ = k'
    · simp [setKey, h₀, lookupKey, h]
    · simp [setKey, h₀, lookupKey, ih]

theorem mergeProps_cons (s : Obj) (k : String) (v : Val) (P : Obj) :
    mergeProps s ((k, v) :: P) = mergeProps (setKey s k v) P := rfl

theorem lookupKey_mergeProps_not_mem (P s : Obj) {k : String}
    (h : k ∉ P.map Prod.fst) : lookupKey (mergeProps s P) k = lookupKey s k := by
  induction P generalizing s with
  | nil => rfl
  | cons e P ih =>
    obtain ⟨k₀, v₀⟩ := e
    simp only [List.map_cons, List.mem_cons, not_or] at h
    rw [mergeProps_cons, ih _ h.2, lookupKey_setKey_ne _ _ (fun hk => h.1 hk.symm)]

theorem lookupKey_mergeProps (P s : Obj) (hnd : (P.map Prod.fst).Nodup) (k : String) :
    lookupKey (mergeProps s P) k =
      match lookupKey P k with
      | some v => some v
      | none => lookupKey s k := by
  induction P generalizing s with
  | nil => rfl
  | cons e P ih =>
    obtain ⟨k₀, v₀⟩ := e
    simp only [List.map_cons, List.nodup_cons] at hnd
    rw [mergeProps_cons]
    by_cases hk : k₀ = k
    · subst hk
      rw [lookupKey_mergeProps_not_mem _ _ hnd.1, lookupKey_setKey_self]
      simp [lookupKey]
    · rw [ih _ hnd.2]
      rcases hP : lookupKey P k with _ | v
      · simp [lookupKey, hk, hP, lookupKey_setKey_ne _ _ hk]
      · simp [lookupKey, hk, hP]

theorem applyUpdateToList_no_match {l : List Obj} {sid : String} (props : Obj)
    (h : ∀ s ∈ l, matchesId s sid = false) : applyUpdateToList l sid props = l := by
  unfold applyUpdateToList
  calc l.map (fun s => if matchesId s sid then mergeProps s props else s)
      = l.map id := List.map_congr_left (fun s hs => by simp [h s hs])
    _ = l := List.map_id l

theorem applyDelete_no_match {l : List Obj} {sid : String}
    (h : ∀ s ∈ l, matchesId s sid = false) : applyDelete l sid = l :=
  List.filter_eq_self.mpr (fun s hs => by simp [h s hs])

theorem updateStore_eq_self {st : Store} {bid : String} {f : Board → Board}
    (h : ∀ e ∈ st, e.1 = bid → f e.2 = e.2) : updateStore st bid f = st := by
  unfold updateStore
  calc st.map (fun e => if e.1 = bid then (e.1, f e.2) else e)
      = st.map id := List.map_congr_left (fun e he => by
        obtain ⟨k, b⟩ := e
        by_cases hb : k = bid
        · simp [hb, h (k, b) he hb]
        · simp [hb])
    _ = st := List.map_id st

theorem mem_updateStore_name {st : Store} {bid : String} {nm : String} {e : String × Board}
    (he : e ∈ updateStore st bid (fun b => { b with name := nm })) (hb : e.1 = bid) :
    e.2.name = nm := by
  unfold updateStore at he
  rcases List.mem_map.mp he with ⟨e₀, _, rfl⟩
  by_cases h₀ : e₀.1 = bid
  · simp [h₀]
  · simp [h₀] at hb

theorem debounceFiresAux_burst (delay : Nat) :
    ∀ (rest : List Nat) (i t : Nat),
      List.Chain' (fun a b => b < a + delay) (t :: rest) →
      debounceFiresAux delay i (t :: rest)
        = [((t :: rest).getLastD 0 + delay, i + rest.length)] := by
  intro rest
  induction rest with
  | nil => intro i t _; simp [debounceFiresAux]
  | cons t' rest ih =>
    intro i t h
    rw [List.chain'_cons] at h
    have hlt : ¬ (t + delay ≤ t') := by omega
    simp only [debounceFiresAux, hlt, if_false, List.nil_append]
    rw [ih (i + 1) t' h.2]
    have harith : i + 1 + rest.length = i + (rest.length + 1) := by omega
    simp [List.getLastD_cons, harith]

theorem findBoard_eq_none {st : Store} {bid : String} (h : findBoard st bid = none) :
    ∀ e ∈ st, e.1 ≠ bid := by
  induction st with
  | nil => simp
  | cons e₀ rest ih =>
    obtain ⟨k, b⟩ := e₀
    by_cases hk : k = bid
    · simp [findBoard, hk] at h
    · simp only [findBoard, hk, if_false] at h
      intro e he
      rcases List.mem_cons.mp he with rfl | hmem
      · exact hk
      · exact ih h e hmem

/-! ## Concrete data used by counterexamples and witnesses -/

/-- The rectangle of the spec's §8 scenario. -/
def demoShape : Obj :=
  [("id", Val.str "s1"), ("type", Val.str "rect"), ("x", Val.num 10), ("y", Val.num 10),
   ("w", Val.num 50), ("h", Val.num 50)]

/-- A second shape with a different id. -/
def demoOther : Obj := [("id", Val.str "s2"), ("type", Val.str "ellipse"), ("x", Val.num 5)]

/-- A board owned by `bob` with an empty shape list. -/
def demoBoard : Board := ⟨"Doc", "", "bob", []⟩

def demoStore : Store := [("b1", demoBoard)]

/-- A store whose board `b1` holds `demoShape` (id `s1`). -/
def demoStore2 : Store := [("b1", ⟨"Doc", "", "bob", [demoShape]⟩)]

def demoCreateMsg : CreateMsg := ⟨some "b1", some demoShape⟩

/-- A malformed shape: no `id`, and a kind no client variant recognises. -/
def bogusShape : Obj := [("type", Val.str "bogus")]

/-! ## Claims -/

/-- C1 (counterexample).  The claim says the originating session never
receives the corresponding fact back.  In the code the fan-out is
`io.to(boardId).emit(...)`, which targets every socket in the room with no
exclusion: here session `s1` joined room `b1`, sends the `shape-create`
intent, and is itself among the recipients of the `shape-created` fact. -/
theorem c1_echo_counterexample :
    ("s1", Fact.shapeCreated demoShape)
      ∈ (handleShapeCreate "s1" (some demoCreateMsg) demoStore ["s1", "s2"] true).2 := by
  decide

/-- C1 (amended).  For every valid intent of any of the four types, the fact
is delivered to exactly the sessions currently in the room — the originating
session included whenever it is a member (`io.to`, not `socket.to`, is used;
no server-side echo suppression exists). -/
theorem c1_fanout_all_members (sender bid sid : String) (sh props : Obj) (nm : String)
    (st : Store) (members : List SessionId) (persistOk : Bool)
    (hbid : bid ≠ "") (hsid : sid ≠ "") :
    (handleShapeCreate sender (some ⟨some bid, some sh⟩) st members persistOk).2
      = emitToRoom members (Fact.shapeCreated sh)
    ∧ (handleShapeUpdate sender (some ⟨some bid, some sid, some props⟩) st members persistOk).2
      = emitToRoom members (Fact.shapeUpdated sid props)
    ∧ (handleShapeDelete sender (some ⟨some bid, some sid⟩) st members persistOk).2
      = emitToRoom members (Fact.shapeDeleted sid)
    ∧ (handleBoardRename sender (some ⟨some bid, some nm⟩) st members true).2
      = emitToRoom members (Fact.boardRenamed (canonName nm)) := by
  refine ⟨?_, ?_, ?_, ?_⟩ <;>
    simp [handleShapeCreate, handleShapeUpdate, handleShapeDelete, handleBoardRename, hbid, hsid]

/-- C1 (witness for the amended theorem). -/
theorem c1_fanout_all_members_witness :
    (handleShapeCreate "s1" (some ⟨some "b1", some demoShape⟩) demoStore ["s1", "s2"] true).2
      = emitToRoom ["s1", "s2"] (Fact.shapeCreated demoShape)
    ∧ (handleShapeUpdate "s1" (some ⟨some "b1", some "s1", some [("x", Val.num 20)]⟩)
        demoStore ["s1", "s2"] true).2
      = emitToRoom ["s1", "s2"] (Fact.shapeUpdated "s1" [("x", Val.num 20)])
    ∧ (handleShapeDelete "s1" (some ⟨some "b1", some "s1"⟩) demoStore ["s1", "s2"] true).2
      = emitToRoom ["s1", "s2"] (Fact.shapeDeleted "s1")
    ∧ (handleBoardRename "s1" (some ⟨some "b1", some "New"⟩) demoStore ["s1", "s2"] true).2
      = emitToRoom ["s1", "s2"] (Fact.boardRenamed (canonName "New")) :=
  c1_fanout_all_members "s1" "b1" "s1" demoShape [("x", Val.num 20)] "New" demoStore
    ["s1", "s2"] true (by decide) (by decide)

/-- C2 (counterexample).  The claim says re-applying the same `shape-create`
leaves exactly one shape with that id.  The server persists the intent with
an unconditional `$push`, so applying the same intent twice stores the shape
twice: the board ends with two entries of id `s1`. -/
theorem c2_server_push_duplicates :
    (handleShapeCreate "s1" (some demoCreateMsg)
        ((handleShapeCreate "s1" (some demoCreateMsg) demoStore [] true).1) [] true).1
      = [("b1", ⟨"Doc", "", "bob", [demoShape, demoShape]⟩)]
    ∧ countWithId [demoShape, demoShape] (some (Val.str "s1")) = 2 := by
  decide

/-- C2 (amended).  Replacement-on-re-application holds for the CLIENT's
local shape list (`onCreated` filters out the incoming id before appending):
applying the same `shape-created` fact twice is idempotent and leaves
exactly one shape carrying the incoming shape's id.  The server-side
persistence, by contrast, `$push`es unconditionally (see the
counterexample). -/
theorem c2_client_create_idempotent (l : List Obj) (sh : Obj) :
    applyCreated (applyCreated l sh) sh = applyCreated l sh
    ∧ countWithId (applyCreated l sh) (idOf sh) = 1 := by
  constructor
  · simp [applyCreated, List.filter_append, List.filter_filter, Bool.and_self]
  · simp [applyCreated, countWithId, List.filter_append, List.filter_filter,
      Bool.and_not_self]

/-- C3 (confirmed).  Merging a partial update payload `P` (whose keys are
unique, as JS object keys are) into an existing shape overwrites exactly the
keys of `P` and leaves every other key's value unchanged — for both the
client's `{...s, ...props}` and the backend's per-key `$set`, embedded as
`mergeProps`. -/
theorem c3_update_merge (s P : Obj) (hnd : (P.map Prod.fst).Nodup) (k : String) :
    lookupKey (mergeProps s P) k =
      match lookupKey P k with
      | some v => some v
      | none => lookupKey s k :=
  lookupKey_mergeProps P s hnd k

/-- C3 (witness): §8 scenario — updating `{x: 20}` on the demo rectangle
yields `x = 20` while `y` keeps its old value. -/
theorem c3_update_merge_witness :
    lookupKey (mergeProps demoShape [("x", Val.num 20)]) "x" = some (Val.num 20)
    ∧ lookupKey (mergeProps demoShape [("x", Val.num 20)]) "y" = some (Val.num 10) :=
  ⟨(c3_update_merge demoShape [("x", Val.num 20)] (by decide) "x").trans (by decide),
   (c3_update_merge demoShape [("x", Val.num 20)] (by decide) "y").trans (by decide)⟩

/-- C4 (confirmed).  For a list holding at most one shape of id `X`,
`shape-delete X` (the `$pull` / client `filter`) leaves no shape with id `X`,
keeps every other shape — identical record, id and all field values — and
preserves the relative order of the survivors (the result is a sublist). -/
theorem c4_delete_frame (l : List Obj) (sid : String)
    (h : countWithId l (some (Val.str sid)) ≤ 1) :
    (∀ s ∈ applyDelete l sid, matchesId s sid = false)
    ∧ (∀ s ∈ l, matchesId s sid = false → s ∈ applyDelete l sid)
    ∧ (applyDelete l sid).Sublist l := by
  refine ⟨?_, ?_, List.filter_sublist l⟩
  · intro s hs
    have := (List.mem_filter.mp hs).2
    simpa using this
  · intro s hs hm
    exact List.mem_filter.mpr ⟨hs, by simp [hm]⟩

/-- C4 (witness). -/
theorem c4_delete_frame_witness :
    countWithId [demoShape, demoOther] (some (Val.str "s1")) ≤ 1
    ∧ demoOther ∈ applyDelete [demoShape, demoOther] "s1"
    ∧ (applyDelete [demoShape, demoOther] "s1").Sublist [demoShape, demoOther] :=
  ⟨by decide,
   (c4_delete_frame [demoShape, demoOther] "s1" (by decide)).2.1 demoOther (by decide) (by decide),
   (c4_delete_frame [demoShape, demoOther] "s1" (by decide)).2.2⟩

/-- C5 (counterexample).  The claim says malformed intents — a required
field missing or an unknown shape kind — are dropped without mutation or
broadcast.  The handlers only check `!data || !data.boardId || !data.shape`:
`bogusShape` has no `id` and an unrecognised kind, yet the intent is
persisted into the board AND broadcast to the peers. -/
theorem c5_malformed_counterexample :
    handleShapeCreate "s1" (some ⟨some "b1", some bogusShape⟩) demoStore ["s2"] true
      = ([("b1", ⟨"Doc", "", "bob", [bogusShape]⟩)],
         [("s2", Fact.shapeCreated bogusShape)]) := by
  decide

/-- C5 (amended).  The only validation is the envelope guard: an intent with
missing payload, falsy `boardId`, or missing `shape`/`shapeId`/`name` field
is dropped silently — no mutation, no broadcast, and no error to the sender
(the handlers return nothing).  No shape-kind validation exists: any shape
object whatsoever in a well-enveloped `shape-create` is fanned out as-is. -/
theorem c5_envelope_validation :
    (∀ (sender : SessionId) (msg : Option CreateMsg) (st : Store)
        (members : List SessionId) (p : Bool),
      createValid msg = false → handleShapeCreate sender msg st members p = (st, []))
    ∧ (∀ (sender : SessionId) (msg : Option UpdateMsg) (st : Store)
        (members : List SessionId) (p : Bool),
      updateValid msg = false → handleShapeUpdate sender msg st members p = (st, []))
    ∧ (∀ (sender : SessionId) (msg : Option DeleteMsg) (st : Store)
        (members : List SessionId) (p : Bool),
      deleteValid msg = false → handleShapeDelete sender msg st members p = (st, []))
    ∧ (∀ (sender : SessionId) (msg : Option RenameMsg) (st : Store)
        (members : List SessionId) (p : Bool),
      renameValid msg = false → handleBoardRename sender msg st members p = (st, []))
    ∧ (∀ (sender : SessionId) (bid : String) (sh : Obj) (st : Store)
        (members : List SessionId) (p : Bool),
      bid ≠ "" →
        (handleShapeCreate sender (some ⟨some bid, some sh⟩) st members p).2
          = emitToRoom members (Fact.shapeCreated sh)) := by
  refine ⟨?_, ?_, ?_, ?_, ?_⟩
  · rintro sender (_ | ⟨_ | bid, _ | sh⟩) st members p h <;>
      simp_all [handleShapeCreate, createValid, truthyStr]
  · rintro sender (_ | ⟨_ | bid, _ | sid, props⟩) st members p h <;>
      simp_all [handleShapeUpdate, updateValid, truthyStr]
  · rintro sender (_ | ⟨_ | bid, _ | sid⟩) st members p h <;>
      simp_all [handleShapeDelete, deleteValid, truthyStr]
  · rintro sender (_ | ⟨_ | bid, _ | nm⟩) st members p h <;>
      simp_all [handleBoardRename, renameValid, truthyStr]
  · intro sender bid sh st members p hbid
    simp [handleShapeCreate, hbid]

/-- C5 (witness for the amended theorem): a payload with an empty `boardId`
is dropped whole; a well-enveloped create carrying the malformed
`bogusShape` is still broadcast. -/
theorem c5_envelope_validation_witness :
    handleShapeCreate "s1" (some ⟨some "", some demoShape⟩) demoStore ["s2"] true
      = (demoStore, [])
    ∧ (handleShapeCreate "s1" (some ⟨some "b1", some bogusShape⟩) demoStore ["s2"] true).2
      = emitToRoom ["s2"] (Fact.shapeCreated bogusShape) :=
  ⟨c5_envelope_validation.1 "s1" (some ⟨some "", some demoShape⟩) demoStore ["s2"] true
      (by decide),
   c5_envelope_validation.2.2.2.2 "s1" "b1" bogusShape demoStore ["s2"] true (by decide)⟩

/-- C6 (confirmed).  A `shape-update` or `shape-delete` whose `shapeId`
matches no shape on the board leaves the stored shape list unchanged
(`$set` with an array filter matching nothing / `$pull` matching nothing are
successful no-ops), returns no error to any client, and the corresponding
fact is still broadcast to the room as-is. -/
theorem c6_unknown_target (sender bid sid : String) (props : Obj) (st : Store)
    (members : List SessionId) (persistOk : Bool)
    (hbid : bid ≠ "") (hsid : sid ≠ "")
    (hmiss : ∀ e ∈ st, e.1 = bid → ∀ s ∈ e.2.shapes, matchesId s sid = false) :
    handleShapeUpdate sender (some ⟨some bid, some sid, some props⟩) st members persistOk
      = (st, emitToRoom members (Fact.shapeUpdated sid props))
    ∧ handleShapeDelete sender (some ⟨some bid, some sid⟩) st members persistOk
      = (st, emitToRoom members (Fact.shapeDeleted sid)) := by
  have hupd : updateStore st bid
      (fun b => { b with shapes := applyUpdateToList b.shapes sid props }) = st :=
    updateStore_eq_self (fun e he heq => by
      rw [applyUpdateToList_no_match props (hmiss e he heq)])
  have hdel : updateStore st bid
      (fun b => { b with shapes := applyDelete b.shapes sid }) = st :=
    updateStore_eq_self (fun e he heq => by
      rw [applyDelete_no_match (hmiss e he heq)])
  constructor
  · cases hp : props.isEmpty <;> cases persistOk <;>
      simp [handleShapeUpdate, hbid, hsid, hupd, hp]
  · cases persistOk <;> simp [handleShapeDelete, hbid, hsid, hdel]

/-- C6 (witness): `zzz` matches no shape on board `b1` (which holds only
`s1`); both intents leave the store untouched and still broadcast. -/
theorem c6_unknown_target_witness :
    handleShapeUpdate "s1" (some ⟨some "b1", some "zzz", some [("x", Val.num 1)]⟩)
        demoStore2 ["s2"] true
      = (demoStore2, [("s2", Fact.shapeUpdated "zzz" [("x", Val.num 1)])])
    ∧ handleShapeDelete "s1" (some ⟨some "b1", some "zzz"⟩) demoStore2 ["s2"] true
      = (demoStore2, [("s2", Fact.shapeDeleted "zzz")]) := by
  have h := c6_unknown_target "s1" "b1" "zzz" [("x", Val.num 1)] demoStore2 ["s2"] true
    (by decide) (by decide) (by decide)
  exact ⟨h.1.trans (by decide), h.2.trans (by decide)⟩

/-- C7 (counterexample).  The claim says a failed persistence write never
suppresses the fan-out, for all intent types including `board-rename`.  In
`board-rename` the emit sits inside the try block after the awaited write:
when the write throws, no `board-renamed` fact is broadcast at all. -/
theorem c7_rename_counterexample :
    (handleBoardRename "s1" (some ⟨some "b1", some "New name"⟩) demoStore ["s2"] true).2
      = [("s2", Fact.boardRenamed "New name")]
    ∧ (handleBoardRename "s1" (some ⟨some "b1", some "New name"⟩) demoStore ["s2"] false).2
      = [] := by
  decide

/-- C7 (amended).  For `shape-create`, `shape-update` and `shape-delete` the
fact is broadcast identically whether the persistence write succeeds or
fails (the emit runs after the try/catch); for `board-rename` a persistence
failure suppresses the broadcast entirely. -/
theorem c7_persistence_fanout (sender : SessionId) (st : Store) (members : List SessionId)
    (msgC : Option CreateMsg) (msgU : Option UpdateMsg) (msgD : Option DeleteMsg)
    (msgR : Option RenameMsg) :
    (handleShapeCreate sender msgC st members true).2
      = (handleShapeCreate sender msgC st members false).2
    ∧ (handleShapeUpdate sender msgU st members true).2
      = (handleShapeUpdate sender msgU st members false).2
    ∧ (handleShapeDelete sender msgD st members true).2
      = (handleShapeDelete sender msgD st members false).2
    ∧ (handleBoardRename sender msgR st members false).2 = [] := by
  refine ⟨?_, ?_, ?_, ?_⟩
  · rcases msgC with _ | ⟨_ | bid, _ | sh⟩ <;> simp [handleShapeCreate] <;> split <;> rfl
  · rcases msgU with _ | ⟨_ | bid, _ | sid, props⟩ <;> simp [handleShapeUpdate] <;>
      split <;> rfl
  · rcases msgD with _ | ⟨_ | bid, _ | sid⟩ <;> simp [handleShapeDelete] <;> split <;> rfl
  · rcases msgR with _ | ⟨_ | bid, _ | nm⟩ <;> simp [handleBoardRename]

/-- C8 (counterexample).  The claim says a burst of K mutations inside the
debounce window causes exactly one persistence write.  Even for K = 1 the
Shape Store receives two writes: the socket handler persists the intent
immediately (`Board.updateOne` per intent) and the client autosave issues
the one debounced PUT 500 ms later. -/
theorem c8_write_count_counterexample :
    shapeStoreWriteCount [] [(0, Mut.create demoShape)] = 2
    ∧ shapeStoreWriteCount [] [(0, Mut.create demoShape)] ≠ 1 := by
  decide

/-- C8 (amended).  For a non-empty burst whose state changes each arrive
strictly within 500 ms of the previous one, the DEBOUNCED AUTOSAVE issues
exactly one write, at 500 ms after the last mutation, carrying the full
shape list as it stands after the last mutation — never an intermediate
state; the Shape Store's total write count for the burst is the per-intent
socket writes plus this one debounced write. -/
theorem c8_debounce_amended (init : List Obj) (muts : List (Nat × Mut))
    (hne : muts ≠ [])
    (hburst : List.Chain' (fun a b => b < a + debounceDelay) (muts.map Prod.fst)) :
    autosaveWrites init muts
      = [((muts.map Prod.fst).getLastD 0 + debounceDelay,
          applyMuts init (muts.map Prod.snd))]
    ∧ shapeStoreWriteCount init muts = socketWriteCount muts + 1 := by
  rcases muts with _ | ⟨⟨t, m⟩, rest⟩
  · exact absurd rfl hne
  · have hmap : ((t, m) :: rest).map Prod.fst = t :: rest.map Prod.fst := rfl
    rw [hmap] at hburst
    have hfires := debounceFiresAux_burst debounceDelay (rest.map Prod.fst) 0 t hburst
    have hw : autosaveWrites init ((t, m) :: rest)
        = [((((t, m) :: rest).map Prod.fst).getLastD 0 + debounceDelay,
            applyMuts init (((t, m) :: rest).map Prod.snd))] := by
      unfold autosaveWrites debounceFires
      rw [hmap, hfires]
      simp [List.length_map, List.take_succ_cons, List.take_length]
      rw [← List.map_take, List.take_length]
    exact ⟨hw, by simp [shapeStoreWriteCount, hw]⟩

/-- C8 (witness for the amended theorem): two mutations 300 ms apart produce
one autosave PUT at 800 ms holding the final state, and three Shape Store
writes in total (two immediate socket writes plus the debounced one). -/
theorem c8_debounce_amended_witness :
    autosaveWrites [] [(0, Mut.create demoShape), (300, Mut.update "s1" [("x", Val.num 20)])]
      = [(800, applyMuts [] [Mut.create demoShape, Mut.update "s1" [("x", Val.num 20)]])]
    ∧ shapeStoreWriteCount []
        [(0, Mut.create demoShape), (300, Mut.update "s1" [("x", Val.num 20)])] = 3 := by
  have h := c8_debounce_amended []
    [(0, Mut.create demoShape), (300, Mut.update "s1" [("x", Val.num 20)])]
    (by decide) (by simp [List.chain'_cons, debounceDelay])
  exact ⟨h.1.trans (by decide), h.2.trans (by decide)⟩

/-- C9 (code bug, evaluated).  The REST handlers the claim cites
(routes/boards.js, mounted behind `verifyFirebase` at index.js 78 with the
comment "all boards CRUD are scoped by req.user.uid") never consult the
caller's uid: `alice` can read, list and rename `bob`'s board, and the
delete route always 500s because it references an unimported `mongoose`. -/
theorem c9_owner_scoping_eval :
    getBoard demoStore "alice" "b1" = RestResult.ok demoBoard
    ∧ listBoards demoStore "alice" = [("b1", demoBoard)]
    ∧ (updateBoardRest demoStore "alice" "b1" (some "Hacked") none).2
      = RestResult.ok ⟨"Hacked", "", "bob", []⟩
    ∧ (overwriteShapesRest demoStore "alice" "b1" (some [demoShape])).1
      = [("b1", ⟨"Doc", "", "bob", [demoShape]⟩)]
    ∧ deleteBoardRest demoStore "bob" "b1" = (demoStore, RestResult.serverError)
    ∧ demoBoard.ownerId = "bob" := by
  decide

/-- C10 (confirmed).  A `board-rename` carrying string `name` applies and
broadcasts the same canonical name: the trimmed input, or the placeholder
`Untitled document` when the trimmed input is empty; the REST
`PUT /api/boards/:id` applies the identical canonicalisation. -/
theorem c10_rename_canonical (sender uid bid nm : String) (st : Store)
    (members : List SessionId) (hbid : bid ≠ "") :
    ((handleBoardRename sender (some ⟨some bid, some nm⟩) st members true).2
        = emitToRoom members (Fact.boardRenamed (canonName nm)))
    ∧ (∀ e ∈ (handleBoardRename sender (some ⟨some bid, some nm⟩) st members true).1,
        e.1 = bid → e.2.name = canonName nm)
    ∧ (∀ e ∈ (updateBoardRest st uid bid (some nm) none).1,
        e.1 = bid → e.2.name = canonName nm)
    ∧ (jsTrim nm = "" → canonName nm = "Untitled document")
    ∧ (jsTrim nm ≠ "" → canonName nm = jsTrim nm) := by
  refine ⟨?_, ?_, ?_, ?_, ?_⟩
  · simp [handleBoardRename, hbid]
  · intro e he heq
    have he' : e ∈ updateStore st bid (fun b => { b with name := canonName nm }) := by
      simpa [handleBoardRename, hbid] using he
    exact mem_updateStore_name he' heq
  · intro e he heq
    rcases hf : findBoard st bid with _ | b
    · simp only [updateBoardRest, hf] at he
      exact absurd heq (findBoard_eq_none hf e he)
    · simp only [updateBoardRest, hf] at he
      exact mem_updateStore_name he heq
  · intro h; simp [canonName, h]
  · intro h; simp [canonName, h]

/-- C10 (witness): a whitespace-only name is persisted and broadcast as
`Untitled document`; an ordinary name is trimmed the same way in both. -/
theorem c10_rename_canonical_witness :
    (handleBoardRename "s1" (some ⟨some "b1", some "   "⟩) demoStore ["s2"] true).2
      = [("s2", Fact.boardRenamed "Untitled document")]
    ∧ canonName "   " = "Untitled document"
    ∧ canonName " New  " = "New" := by
  have h := c10_rename_canonical "s1" "alice" "b1" "   " demoStore ["s2"] (by decide)
  have h2 := c10_rename_canonical "s1" "alice" "b1" " New  " demoStore ["s2"] (by decide)
  exact ⟨h.1.trans (by decide), h.2.2.2.1 (by decide), (h2.2.2.2.2 (by decide)).trans (by decide)⟩

end PowerSync
